import Mathlib

/-!
Verification development for the `@axe-core/webdriverio` builder
(`packages/webdriverio/src/index.ts`): a shallow embedding of the
`AxeBuilder` class, its frame-traversal collector `runPartialRecursive`,
the window-isolated `finishRun`, and the `analyze` entry point.

Modelling conventions:
* The remote browser is a world value.  The frame tree is an inductive
  structure; every engine/driver operation that can fail carries a
  success flag in the world.  The active browsing context is a path of
  child indices from the top-level document; `switchToFrame` appends an
  index, `switchToParentFrame` drops the last one (at the top it is a
  no-op, as in WebDriver), and is modelled as always succeeding.
* `axe.runPartial` results are opaque; we represent the partial result
  produced in a frame by the context path at which it was executed, so
  ordering statements are directly expressible.
* Frame selectors produced by `axeGetFrameContext` are positional: the
  selector for child `i` resolves to child `i` of whatever frame the
  browsing context is currently in (as a CSS child selector would).
* `runPartialRecursive` can fail to terminate when a pre-switch failure
  shifts the context and a sibling selector resolves to an ancestor's
  child, so the collector is defined with explicit fuel via `Nat.rec`;
  `RunErr.fuelOut` marks fuel exhaustion and is never produced by the
  modelled program logic itself.
-/

namespace AxeWdio

/-! ## Run options and the configuration builder (`AxeBuilder` fields and methods) -/

inductive RunOnlyType where
  | rule : RunOnlyType
  | tag : RunOnlyType
deriving DecidableEq, Repr

structure RunOnly where
  type : RunOnlyType
  values : List String
deriving DecidableEq, Repr

/-- `RunOptions` as used by the builder: `runOnly` (rule/tag selection) and the
per-rule enable map set by `disableRules`.  Other engine options are opaque. -/
structure RunOptions where
  runOnly : Option RunOnly
  rules : Option (List (String × Bool))
deriving DecidableEq, Repr

def RunOptions.empty : RunOptions := ⟨none, none⟩

/-- A selector argument: a single string or a string array
(`Array.isArray(selector) ? selector : [selector]`). -/
def toStringList : Sum String (List String) → List String
  | .inl s => [s]
  | .inr l => l

/-- Accumulated builder state: the private fields of the `AxeBuilder` class. -/
structure AxeBuilder where
  includes : List (List String)
  excludes : List (List String)
  option : RunOptions
  disableFrameSelectors : List String
  legacyMode : Bool
deriving DecidableEq, Repr

/-- Field initializers of the class (`includes = []`, `excludes = []`,
`option = {}`, `disableFrameSelectors = []`, `legacyMode = false`). -/
def AxeBuilder.init : AxeBuilder := ⟨[], [], RunOptions.empty, [], false⟩

/-- `disableFrame(selector)`: pushes `cssesc(selector)`.  The third-party
escaping utility is out of scope, so it is passed in as `esc`. -/
def AxeBuilder.disableFrame (b : AxeBuilder) (esc : String → String) (selector : String) :
    AxeBuilder :=
  { b with disableFrameSelectors := b.disableFrameSelectors ++ [esc selector] }

/-- `include(selector)`: normalizes to an array and pushes it. -/
def AxeBuilder.include_ (b : AxeBuilder) (selector : Sum String (List String)) : AxeBuilder :=
  { b with includes := b.includes ++ [toStringList selector] }

/-- `exclude(selector)`: normalizes to an array and pushes it. -/
def AxeBuilder.exclude (b : AxeBuilder) (selector : Sum String (List String)) : AxeBuilder :=
  { b with excludes := b.excludes ++ [toStringList selector] }

/-- `options(options)`: replaces the whole stored `RunOptions` object. -/
def AxeBuilder.options (b : AxeBuilder) (o : RunOptions) : AxeBuilder :=
  { b with option := o }

/-- `withRules(rules)`: overwrites `option.runOnly` with a rule selection. -/
def AxeBuilder.withRules (b : AxeBuilder) (rules : Sum String (List String)) : AxeBuilder :=
  { b with option := { b.option with runOnly := some ⟨RunOnlyType.rule, toStringList rules⟩ } }

/-- `withTags(tags)`: overwrites `option.runOnly` with a tag selection. -/
def AxeBuilder.withTags (b : AxeBuilder) (tags : Sum String (List String)) : AxeBuilder :=
  { b with option := { b.option with runOnly := some ⟨RunOnlyType.tag, toStringList tags⟩ } }

/-- One step of `this.option.rules[rule] = { enabled: false }` on a JS object:
reassigning an existing key keeps its position, a new key is appended. -/
def setRuleDisabled (m : List (String × Bool)) (r : String) : List (String × Bool) :=
  if m.any (fun q => q.1 == r) then m.map (fun q => if q.1 == r then (r, false) else q)
  else m ++ [(r, false)]

/-- `disableRules(rules)`: resets `option.rules` to `{}` and then disables
each given rule. -/
def AxeBuilder.disableRules (b : AxeBuilder) (rules : Sum String (List String)) : AxeBuilder :=
  { b with option :=
      { b.option with rules := some ((toStringList rules).foldl setRuleDisabled []) } }

/-- `setLegacyMode(legacyMode = true)`: `none` models an omitted argument,
which defaults to `true`. -/
def AxeBuilder.setLegacyMode (b : AxeBuilder) (legacyMode : Option Bool) : AxeBuilder :=
  { b with legacyMode := legacyMode.getD true }

/-! ## Script composer (the private `script` getter) -/

def scriptHead : String := "\n      "

def scriptCfgOpen : String := "\n      axe.configure(\x7b\n        "

/-- The cross-origin whitelist entry added when legacy mode is off. -/
def wlEntry : String := "allowedOrigins: [\x27<unsafe_all_origins>\x27],"

def scriptCfgClose : String :=
  "\n        branding: \x7b application: \x27webdriverio\x27 \x7d\n      \x7d)\n      "

/-- The composed script: engine source followed by an `axe.configure` call;
the `allowedOrigins` line is present exactly when `legacyMode` is off. -/
def script (axeSource : String) (legacyMode : Bool) : String :=
  scriptHead ++ axeSource ++ scriptCfgOpen ++
    (if legacyMode then "" else wlEntry) ++ scriptCfgClose

def brandingPat : List Char := ("branding: \x7b application: \x27webdriverio\x27 \x7d").toList

def wlPat : List Char := ("allowedOrigins").toList

/-! ## Frame-tree world for `runPartialRecursive` -/

/-- The children of a frame, with the per-child outcome flags of every
driver/engine operation `runPartialRecursive` performs on that child:
`lookupOk` — `$(frameSelector)` finds the element and the `assert` passes;
`switchOk` — `switchToFrame` succeeds; `getCtxOk` — `axeGetFrameContext`
succeeds inside the child; `runPartialOk` — `axeRunPartial` succeeds inside
the child; `injectOk` — `axeSourceInject(this.script)` succeeds inside the
child; `kids` — the child's own children. -/
inductive Edges where
  | nil : Edges
  | cons (lookupOk switchOk getCtxOk runPartialOk injectOk : Bool)
      (kids : Edges) (rest : Edges) : Edges
deriving DecidableEq, Repr

/-- A frame: outcome flags of the operations run inside it, plus its children. -/
structure Frame where
  getCtxOk : Bool
  runPartialOk : Bool
  injectOk : Bool
  kids : Edges
deriving DecidableEq, Repr

def Edges.length : Edges → Nat
  | .nil => 0
  | .cons _ _ _ _ _ _ rest => rest.length + 1

def Edges.get? : Edges → Nat → Option (Bool × Bool × Frame)
  | .nil, _ => none
  | .cons l s g rp inj kids _, 0 => some (l, s, ⟨g, rp, inj, kids⟩)
  | .cons _ _ _ _ _ _ rest, i + 1 => rest.get? i

def Edges.dropE : Edges → Nat → Edges
  | cs, 0 => cs
  | .nil, _ + 1 => .nil
  | .cons _ _ _ _ _ _ rest, i + 1 => rest.dropE i

/-- All frame lookups and frame switches in the subtree succeed, i.e. every
per-child failure can only happen after the context entered the child. -/
def Edges.goodAll : Edges → Bool
  | .nil => true
  | .cons l s _ _ _ kids rest => l && s && kids.goodAll && rest.goodAll

def Frame.goodEdges (f : Frame) : Bool := f.kids.goodAll

def Edges.heightE : Edges → Nat
  | .nil => 0
  | .cons _ _ _ _ _ kids rest => max (kids.heightE + 1) rest.heightE

def Frame.height (f : Frame) : Nat := f.kids.heightE + 1

/-- Number of frames in each subtree, summed: the "full recursive count"
of a frame's subtree is `1 + fullCountE` of its children. -/
def Edges.fullCountE : Edges → Nat
  | .nil => 0
  | .cons _ _ _ _ _ kids rest => (kids.fullCountE + 1) + rest.fullCountE

def Frame.fullCount (f : Frame) : Nat := f.kids.fullCountE + 1

/-- The frame at a context path, following child indices from `f`. -/
def subframe? : Frame → List Nat → Option Frame
  | f, [] => some f
  | f, i :: p =>
    match f.kids.get? i with
    | none => none
    | some (_, _, c) => subframe? c p

/-- `switchToParentFrame`: drop the innermost frame; a no-op at the top. -/
def popFrame (p : List Nat) : List Nat := p.dropLast

/-- A partial result is identified by the context path at which
`axeRunPartial` executed; `none` is the failure marker pushed by the catch. -/
abbrev Partials := List (Option (List Nat))

inductive RunErr where
  | thrown (p : List Nat) : RunErr
  | fuelOut : RunErr
deriving DecidableEq, Repr

/-- One iteration of the `for (const { frameSelector, frameContext } of
frameContexts)` loop for child index `i`, at current context `q`:
```
try {
  const frame = await this.client.$(frameSelector);
  assert(frame, ...);
  await this.client.switchToFrame(frame);
  await axeSourceInject(this.client, this.script);
  partials.push(...(await this.runPartialRecursive(frameContext)));
} catch (error) {
  partials.push(null);
  await this.client.switchToParentFrame();
}
```
Returns the entries pushed and the context after the iteration.  Note the
catch pops the context even when the failure happened before
`switchToFrame` succeeded. -/
def runChildF (recurse : List Nat → Except RunErr (Partials × List Nat))
    (root : Frame) (q : List Nat) (i : Nat) : Except RunErr (Partials × List Nat) :=
  match subframe? root q with
  | none => .ok ([none], popFrame q)
  | some g =>
    match g.kids.get? i with
    | none => .ok ([none], popFrame q)
    | some (lOk, sOk, c) =>
      if lOk = false then .ok ([none], popFrame q)
      else if sOk = false then .ok ([none], popFrame q)
      else if c.injectOk = false then .ok ([none], popFrame (q ++ [i]))
      else
        match recurse (q ++ [i]) with
        | .error (RunErr.thrown r) => .ok ([none], popFrame r)
        | .error RunErr.fuelOut => .error RunErr.fuelOut
        | .ok (ps, r) => .ok (ps, r)

/-- The child loop over the frame-context indices discovered at entry,
threading the (global, mutable) browsing context. -/
def runChildrenF (recurse : List Nat → Except RunErr (Partials × List Nat))
    (root : Frame) : List Nat → List Nat → Except RunErr (Partials × List Nat)
  | [], q => .ok ([], q)
  | i :: is, q =>
    match runChildF recurse root q i with
    | .error e => .error e
    | .ok (contrib, q1) =>
      match runChildrenF recurse root is q1 with
      | .error e => .error e
      | .ok (rest, q2) => .ok (contrib ++ rest, q2)

/-- The body of `runPartialRecursive` at context `p`:
`axeGetFrameContext`, then `axeRunPartial` (first entry), then the child
loop, then a final `switchToParentFrame` before returning. -/
def runPRStep (recurse : List Nat → Except RunErr (Partials × List Nat))
    (root : Frame) (p : List Nat) : Except RunErr (Partials × List Nat) :=
  match subframe? root p with
  | none => .error (RunErr.thrown p)
  | some f =>
    if f.getCtxOk = false then .error (RunErr.thrown p)
    else if f.runPartialOk = false then .error (RunErr.thrown p)
    else
      match runChildrenF recurse root (List.range f.kids.length) p with
      | .error e => .error e
      | .ok (contribs, pEnd) => .ok (some p :: contribs, popFrame pEnd)

/-- Fuel-indexed collector, by primitive recursion so that it reduces. -/
def runPRFun : Nat → Frame → List Nat → Except RunErr (Partials × List Nat) :=
  fun fuel =>
    Nat.rec (fun _ _ => .error RunErr.fuelOut)
      (fun _ ih => fun root p => runPRStep (fun q => ih root q) root p) fuel

/-- `runPartialRecursive` on world `root`, starting at context `p`. -/
def runPartialRecursiveM (root : Frame) (fuel : Nat) (p : List Nat) :
    Except RunErr (Partials × List Nat) :=
  runPRFun fuel root p

/-! ## Specification-side description of the collector's output

These definitions follow the claim's words (self first, then each
discovered child in order; a failed child contributes exactly one `null`,
a successful one its entire subtree sequence) and are compared with
`runPartialRecursiveM`. -/

/-- Contributions of the children of a frame, in discovery order; child `i`
lives at path `p ++ [i]`.  A child whose injection fails or whose own scan
throws contributes `[none]`; otherwise it contributes its subtree's
sequence. -/
def childSeqsE : Edges → List Nat → Nat → Partials
  | .nil, _, _ => []
  | .cons _ _ g rp inj kids rest, p, i =>
    (if inj = false then [none]
     else if (g && rp) = false then [none]
     else some (p ++ [i]) :: childSeqsE kids (p ++ [i]) 0) ++ childSeqsE rest p (i + 1)

/-- The pre-order sequence an invocation at frame `f`, context `p`, returns;
`none` when the invocation itself throws (its own `axeGetFrameContext` or
`axeRunPartial` failed). -/
def preorderSeq (f : Frame) (p : List Nat) : Option Partials :=
  if (f.getCtxOk && f.runPartialOk) = false then none
  else some (some p :: childSeqsE f.kids p 0)

/-- The result the claim predicts: a throw leaves the context at `p`; a
normal return restores it to the caller's frame `popFrame p`. -/
def preorderResult (f : Frame) (p : List Nat) : Except RunErr (Partials × List Nat) :=
  match preorderSeq f p with
  | none => .error (RunErr.thrown p)
  | some s => .ok (s, popFrame p)

/-- Length contributed per child in the claim's count: `1` for a failed
child, the child's own full recursive count otherwise. -/
def Edges.contribLenE : Edges → Nat
  | .nil => 0
  | .cons _ _ g rp inj kids rest =>
    (if inj = false then 1
     else if (g && rp) = false then 1
     else kids.contribLenE + 1) + rest.contribLenE

/-- The pre-loop operations of an invocation fail (`axeGetFrameContext` or
`axeRunPartial` at `p`); these are the only errors that escape. -/
def preloopFails (root : Frame) (p : List Nat) : Bool :=
  match subframe? root p with
  | none => true
  | some f => !f.getCtxOk || !f.runPartialOk

def resultCtx : Except RunErr (Partials × List Nat) → List Nat
  | .ok (_, q) => q
  | .error (RunErr.thrown q) => q
  | .error RunErr.fuelOut => []

def resultIsOk : Except RunErr (Partials × List Nat) → Bool
  | .ok _ => true
  | .error _ => false

def resultIsFuelOut : Except RunErr (Partials × List Nat) → Bool
  | .error RunErr.fuelOut => true
  | _ => false

/-! ## Window lifecycle and `finishRun` -/

/-- The final merged report is opaque; a string stands for it. -/
abbrev AxeRes := String

/-- Window-manager state: the active window handle and the open handles. -/
structure WinState where
  current : String
  opened : List String
deriving DecidableEq, Repr

/-- World for `finishRun`: `newHandle` is what `createWindow('tab')` reports
(`none` or the empty string make the `assert` fail); `switchNewErr` /
`urlErr` are the messages with which `switchToWindow(newWindow.handle)` /
`url('about:blank')` throw, if they do; `merge` is the outcome of
`axeFinishRun` on the given partials. -/
structure FinishWorld where
  newHandle : Option String
  switchNewErr : Option String
  urlErr : Option String
  merge : Partials → Except String AxeRes

def popupMsg : String := "Please make sure that you have popup blockers disabled."

def switchWinMsgPre : String :=
  "switchToWindow failed. Are you using updated browser drivers? \nDriver reported:\n"

/-- `finishRun(partials)`: record the current handle, open a tab, switch into
it and navigate, merge, then close the tab and switch back.  There is no
try/finally around the merge: a merge error propagates with the temporary
window still open and current.  Errors carry the window state at the throw. -/
def finishRunM (w : FinishWorld) (partials : Partials) (st : WinState) :
    Except (String × WinState) (AxeRes × WinState) :=
  let win := st.current
  match w.newHandle with
  | none => .error (popupMsg, st)
  | some h =>
    if h = "" then .error (popupMsg, st)
    else
      let st1 : WinState := ⟨st.current, st.opened ++ [h]⟩
      match w.switchNewErr with
      | some e => .error (switchWinMsgPre ++ e, st1)
      | none =>
        let st2 : WinState := ⟨h, st1.opened⟩
        match w.urlErr with
        | some e => .error (switchWinMsgPre ++ e, st2)
        | none =>
          match w.merge partials with
          | .error e => .error (e, st2)
          | .ok res => .ok (res, ⟨win, st2.opened.erase h⟩)

/-! ## `analyzePromise`, `runLegacy` and `analyze` -/

/-- The normalized scan context.  Modelled from the spec: `normalizeContext`
lives in `./utils`, which is not part of the provided source; per spec §4.1
it merges the include/exclude selector chains and the disabled-frame
selectors into one descriptor, the default include being the whole
document when none was specified. -/
structure ScanContext where
  includeList : List (List String)
  excludeList : List (List String)
  disabledFrameSelectors : List String
deriving DecidableEq, Repr

/-- Modelled from the spec: see `ScanContext`. -/
def normalizeContextM (includes excludes : List (List String))
    (disabledFrames : List String) : ScanContext :=
  ⟨if includes.isEmpty then [["document"]] else includes, excludes, disabledFrames⟩

/-- Errors reaching `analyze`: `msg` carries an error message string;
`collector` is an error thrown out of `runPartialRecursive` with the
context at `q` (its message text is not tracked by the frame model);
`fuelOut` is the fuel artifact. -/
inductive AError where
  | msg (s : String) : AError
  | collector (q : List Nat) : AError
  | fuelOut : AError
deriving DecidableEq, Repr

/-- The `err.message` seen by the callback.  The frame model does not track
message text for collector errors, so a fixed placeholder stands for it. -/
def AError.message : AError → String
  | .msg s => s
  | .collector _ => "error in frame"
  | .fuelOut => "collector ran out of fuel"

/-- World for one `analyzePromise` run: `probe` is
`axeSourceInject(client, axeSource)` on the top frame (an error, or the
`runPartialSupported` verdict); `frameTree`/`fuel` drive the collector;
`legacyRes` is `axeRunLegacy(client, context, option)` (together with the
`inject()` walk) as a function of the forwarded context and options;
`finish` is the `finishRun` world. -/
structure AnalyzeWorld where
  probe : Except String Bool
  frameTree : Frame
  fuel : Nat
  legacyRes : ScanContext → RunOptions → Except String AxeRes
  finish : FinishWorld

/-- The externally visible steps of `analyzePromise`, in order. -/
inductive Step where
  | normalizeCtx : Step
  | probeTop : Step
  | injectAllFrames : Step
  | legacyRun : Step
  | collectParts : Step
  | finishStep : Step
deriving DecidableEq, Repr

def troubleshootMsg : String :=
  "\n Please check out https://github.com/dequelabs/axe-core-npm/blob/develop/packages/webdriverio/error-handling.md"

structure AnalyzeOutcome where
  trace : List Step
  final : WinState
  result : Except AError AxeRes
deriving Repr

def exceptToAErr : Except String AxeRes → Except AError AxeRes
  | .ok v => .ok v
  | .error e => .error (.msg e)

/-- `analyzePromise()`: build the context, probe partial support, then either
the legacy path (`runLegacy` = `inject()` + `axeRunLegacy`) or the partial
path (`runPartialRecursive` from the top, then `finishRun` wrapped in the
try/catch that appends the troubleshooting pointer). -/
def analyzePromiseM (b : AxeBuilder) (w : AnalyzeWorld) (st : WinState) : AnalyzeOutcome :=
  let context := normalizeContextM b.includes b.excludes b.disableFrameSelectors
  match w.probe with
  | .error e => ⟨[.normalizeCtx, .probeTop], st, .error (.msg e)⟩
  | .ok supported =>
    if (!supported || b.legacyMode) = true then
      ⟨[.normalizeCtx, .probeTop, .injectAllFrames, .legacyRun], st,
        exceptToAErr (w.legacyRes context b.option)⟩
    else
      match runPartialRecursiveM w.frameTree w.fuel [] with
      | .error (RunErr.thrown q) =>
        ⟨[.normalizeCtx, .probeTop, .collectParts], st, .error (.collector q)⟩
      | .error RunErr.fuelOut =>
        ⟨[.normalizeCtx, .probeTop, .collectParts], st, .error .fuelOut⟩
      | .ok (parts, _) =>
        match finishRunM w.finish parts st with
        | .error (e, st') =>
          ⟨[.normalizeCtx, .probeTop, .collectParts, .finishStep], st',
            .error (.msg (e ++ troubleshootMsg))⟩
        | .ok (res, st') =>
          ⟨[.normalizeCtx, .probeTop, .collectParts, .finishStep], st', .ok res⟩

/-- The settlement state of the promise returned by `analyze`:
`resolved (some r)` is `resolve(results)`; `resolved none` would be a
resolution with no value (never produced by the code); `pending` means
neither `resolve` nor `reject` was ever called. -/
inductive PromiseState (R : Type) where
  | resolved (r : Option R) : PromiseState R
  | rejected (e : AError) : PromiseState R
  | pending : PromiseState R
deriving DecidableEq, Repr

/-- `analyze(callback?)`: on success, call the callback (if any) with
`(null, results)` and resolve; on failure with a callback, call it with
`(err.message, null)` and call neither `resolve` nor `reject`; on failure
without a callback, reject.  Returns the callback invocations and the
promise state. -/
def analyzeM (res : Except AError AxeRes) (hasCallback : Bool) :
    List (Option String × Option AxeRes) × PromiseState AxeRes :=
  match res with
  | .ok r => ((if hasCallback then [(none, some r)] else []), .resolved (some r))
  | .error e =>
    if hasCallback then ([(some e.message, none)], .pending) else ([], .rejected e)

/-- `analyze` composed over a full `analyzePromise` run. -/
def analyzeFullM (b : AxeBuilder) (w : AnalyzeWorld) (st : WinState) (hasCallback : Bool) :
    List (Option String × Option AxeRes) × PromiseState AxeRes :=
  analyzeM (analyzePromiseM b w st).result hasCallback

/-! ## Concrete worlds used to evaluate the models -/

/-- Children of frame `A` in `cexTree1`: child `B1` whose `switchToFrame`
fails, and a good leaf child `B2`. -/
def cexKidsA : Edges :=
  Edges.cons true false true true true Edges.nil
    (Edges.cons true true true true true Edges.nil Edges.nil)

/-- Children of frame `X` in `cexTree1`: two good leaves. -/
def cexKidsX : Edges :=
  Edges.cons true true true true true Edges.nil
    (Edges.cons true true true true true Edges.nil Edges.nil)

/-- Top frame with children `A` (index 0, whose own first child fails before
the context entered it) and `X` (index 1, a good subtree of three frames). -/
def cexTree1 : Frame :=
  ⟨true, true, true,
    Edges.cons true true true true true cexKidsA
      (Edges.cons true true true true true cexKidsX Edges.nil)⟩

/-- Top frame → `A` → `B`, where `B` has one child whose `switchToFrame`
fails; used to show the context ends above the caller's frame. -/
def cexTree3 : Frame :=
  ⟨true, true, true,
    Edges.cons true true true true true
      (Edges.cons true true true true true
        (Edges.cons true false true true true Edges.nil Edges.nil) Edges.nil)
      Edges.nil⟩

/-- A good single-child tree. -/
def witTree1 : Frame := ⟨true, true, true, Edges.cons true true true true true Edges.nil Edges.nil⟩

/-- A leaf frame whose own `axeRunPartial` fails. -/
def witTree3 : Frame := ⟨true, false, true, Edges.nil⟩

/-- A leaf frame whose `axeGetFrameContext` fails. -/
def witTree2 : Frame := ⟨false, true, true, Edges.nil⟩

/-- A `finishRun` world whose merge step fails. -/
def cexFinishW4 : FinishWorld :=
  ⟨some ("tmp"), none, none, fun _ => Except.error ("merge failed")⟩

/-- An `analyzePromise` world on the partial path reaching the failing merge. -/
def cexAnalyzeW4 : AnalyzeWorld :=
  ⟨Except.ok true, ⟨true, true, true, Edges.nil⟩, 2, fun _ _ => Except.ok ("unused"), cexFinishW4⟩

/-- A `finishRun` world whose merge step fails, for the amended C4 witness. -/
def witFinishW4 : FinishWorld :=
  ⟨some ("tw"), none, none, fun _ => Except.error ("bad merge")⟩

/-- World for the amended C4 witness. -/
def witAnalyzeW4 : AnalyzeWorld :=
  ⟨Except.ok true, ⟨true, true, true, Edges.nil⟩, 2, fun _ _ => Except.ok ("x"), witFinishW4⟩

/-- World whose top-frame probe throws. -/
def witAnalyzeW2 : AnalyzeWorld :=
  ⟨Except.error ("probe boom"), ⟨true, true, true, Edges.nil⟩, 2,
    fun _ _ => Except.ok ("r"), ⟨some ("t"), none, none, fun _ => Except.ok ("res")⟩⟩

/-- World whose probe reports that partial runs are unsupported. -/
def witAnalyzeW6 : AnalyzeWorld :=
  ⟨Except.ok false, ⟨true, true, true, Edges.nil⟩, 1,
    fun _ _ => Except.ok ("legacy result"), ⟨some ("t6"), none, none, fun _ => Except.ok ("r6")⟩⟩

/-! ## Supporting lemmas -/

theorem popFrame_concat (p : List Nat) (i : Nat) : popFrame (p ++ [i]) = p := by
  simp [popFrame]

theorem subframe?_append (p q : List Nat) (f : Frame) :
    subframe? f (p ++ q) = (subframe? f p).bind (fun g => subframe? g q) := by
  induction p generalizing f with
  | nil => simp [subframe?]
  | cons i p ih =>
    simp only [List.cons_append, subframe?]
    cases h : f.kids.get? i with
    | none => simp
    | some t =>
      obtain ⟨l, s, c⟩ := t
      simp [ih]

theorem subframe?_child (root : Frame) (p : List Nat) (f : Frame) (i : Nat)
    (l s : Bool) (c : Frame) (hp : subframe? root p = some f)
    (hg : f.kids.get? i = some (l, s, c)) : subframe? root (p ++ [i]) = some c := by
  rw [subframe?_append, hp]
  simp [subframe?, hg]

theorem Edges.dropE_zero (cs : Edges) : cs.dropE 0 = cs := by
  simp [Edges.dropE]

theorem Edges.get?_of_dropE (i : Nat) :
    ∀ (cs : Edges) (l s g rp inj : Bool) (kids rest : Edges),
      cs.dropE i = Edges.cons l s g rp inj kids rest →
      cs.get? i = some (l, s, ⟨g, rp, inj, kids⟩) := by
  induction i with
  | zero =>
    intro cs l s g rp inj kids rest h
    simp only [Edges.dropE] at h
    subst h
    rfl
  | succ i ih =>
    intro cs l s g rp inj kids rest h
    cases cs with
    | nil => simp [Edges.dropE] at h
    | cons l' s' g' rp' inj' kids' rest' =>
      simp only [Edges.dropE] at h
      simpa [Edges.get?] using ih rest' l s g rp inj kids rest h

theorem Edges.dropE_succ (i : Nat) :
    ∀ (cs : Edges) (l s g rp inj : Bool) (kids rest : Edges),
      cs.dropE i = Edges.cons l s g rp inj kids rest → cs.dropE (i + 1) = rest := by
  induction i with
  | zero =>
    intro cs l s g rp inj kids rest h
    simp only [Edges.dropE] at h
    subst h
    simp [Edges.dropE]
  | succ i ih =>
    intro cs l s g rp inj kids rest h
    cases cs with
    | nil => simp [Edges.dropE] at h
    | cons l' s' g' rp' inj' kids' rest' =>
      simp only [Edges.dropE] at h
      simpa [Edges.dropE] using ih rest' l s g rp inj kids rest h

theorem Edges.goodAll_dropE (i : Nat) :
    ∀ (cs : Edges), cs.goodAll = true → (cs.dropE i).goodAll = true := by
  induction i with
  | zero => intro cs h; simpa [Edges.dropE] using h
  | succ i ih =>
    intro cs h
    cases cs with
    | nil => simp [Edges.dropE, Edges.goodAll]
    | cons l s g rp inj kids rest =>
      simp only [Edges.goodAll, Bool.and_eq_true] at h
      simp only [Edges.dropE]
      exact ih rest h.2

theorem Edges.heightE_dropE_le (i : Nat) :
    ∀ (cs : Edges), (cs.dropE i).heightE ≤ cs.heightE := by
  induction i with
  | zero => intro cs; simp [Edges.dropE]
  | succ i ih =>
    intro cs
    cases cs with
    | nil => simp [Edges.dropE]
    | cons l s g rp inj kids rest =>
      simp only [Edges.dropE, Edges.heightE]
      exact le_trans (ih rest) (le_max_right _ _)

theorem childSeqsE_length : ∀ (cs : Edges) (p : List Nat) (i : Nat),
    (childSeqsE cs p i).length = cs.contribLenE := by
  intro cs
  induction cs with
  | nil => intro p i; rfl
  | cons l s g rp inj kids rest ihK ihR =>
    intro p i
    by_cases hinj : inj = false
    · simp [childSeqsE, Edges.contribLenE, hinj, ihR]
      all_goals omega
    · by_cases hgp : (g && rp) = false
      · simp [childSeqsE, Edges.contribLenE, hinj, hgp, ihR]
        all_goals omega
      · simp [childSeqsE, Edges.contribLenE, hinj, hgp, ihK, ihR]
        all_goals omega

/-- A single child iteration never lets an exception escape: the only error
it can return is the fuel artifact. -/
theorem runChildF_error (recurse : List Nat → Except RunErr (Partials × List Nat))
    (root : Frame) (q : List Nat) (i : Nat) (e : RunErr)
    (h : runChildF recurse root q i = .error e) : e = RunErr.fuelOut := by
  unfold runChildF at h
  repeat' split at h
  all_goals simp_all

/-- The child loop never lets an exception escape either. -/
theorem runChildrenF_error (recurse : List Nat → Except RunErr (Partials × List Nat))
    (root : Frame) : ∀ (is q : List Nat) (e : RunErr),
    runChildrenF recurse root is q = .error e → e = RunErr.fuelOut := by
  intro is
  induction is with
  | nil => intro q e h; simp [runChildrenF] at h
  | cons i is ih =>
    intro q e h
    unfold runChildrenF at h
    cases hc : runChildF recurse root q i with
    | error e' =>
      rw [hc] at h
      simp only [Except.error.injEq] at h
      exact h ▸ runChildF_error recurse root q i e' hc
    | ok t =>
      obtain ⟨contrib, q1⟩ := t
      rw [hc] at h
      simp only [] at h
      cases hr : runChildrenF recurse root is q1 with
      | error e' =>
        rw [hr] at h
        simp only [Except.error.injEq] at h
        exact h ▸ ih q1 e' hr
      | ok t2 =>
        rw [hr] at h
        simp at h

/-- One child iteration in the well-behaved case (its lookup and switch
succeed): it contributes exactly what the claim's description predicts and
returns the context to `p`. -/
theorem runChildF_good (fuel : Nat) (root : Frame)
    (IH : ∀ (p : List Nat) (f : Frame), subframe? root p = some f → f.goodEdges = true →
      f.height ≤ fuel → runPRFun fuel root p = preorderResult f p)
    (p : List Nat) (f : Frame) (i : Nat) (g rp inj : Bool) (kids : Edges)
    (hsub : subframe? root p = some f)
    (hget : f.kids.get? i = some (true, true, ⟨g, rp, inj, kids⟩))
    (hgk : kids.goodAll = true) (hhk : kids.heightE + 1 ≤ fuel) :
    runChildF (fun q => runPRFun fuel root q) root p i =
      .ok ((if inj = false then [none]
            else if (g && rp) = false then [none]
            else some (p ++ [i]) :: childSeqsE kids (p ++ [i]) 0), p) := by
  unfold runChildF
  rw [hsub]
  simp only []
  rw [hget]
  simp only []
  by_cases hinj : inj = false
  · simp [hinj, popFrame_concat]
  · have hsubc : subframe? root (p ++ [i]) = some ⟨g, rp, inj, kids⟩ :=
      subframe?_child root p f i true true ⟨g, rp, inj, kids⟩ hsub hget
    have hPR := IH (p ++ [i]) ⟨g, rp, inj, kids⟩ hsubc
      (by simpa [Frame.goodEdges] using hgk) (by simpa [Frame.height] using hhk)
    by_cases hgp : (g && rp) = false
    · have hpre : preorderResult ⟨g, rp, inj, kids⟩ (p ++ [i]) =
          .error (RunErr.thrown (p ++ [i])) := by
        simp [preorderResult, preorderSeq, hgp]
      rw [hpre] at hPR
      simp [hinj, hPR, hgp, popFrame_concat]
    · have hpre : preorderResult ⟨g, rp, inj, kids⟩ (p ++ [i]) =
          .ok (some (p ++ [i]) :: childSeqsE kids (p ++ [i]) 0, p) := by
        simp [preorderResult, preorderSeq, hgp, popFrame_concat]
      rw [hpre] at hPR
      simp [hinj, hPR, hgp]

/-- The child loop over the suffix of the children starting at index `i`,
when all lookups and switches succeed: it returns the claim's contributions
and leaves the context at `p`. -/
theorem runChildrenF_spec (fuel : Nat) (root : Frame)
    (IH : ∀ (p : List Nat) (f : Frame), subframe? root p = some f → f.goodEdges = true →
      f.height ≤ fuel → runPRFun fuel root p = preorderResult f p) :
    ∀ (cs' : Edges) (i : Nat) (p : List Nat) (f : Frame),
      subframe? root p = some f → f.kids.goodAll = true → f.kids.heightE ≤ fuel →
      f.kids.dropE i = cs' →
      runChildrenF (fun q => runPRFun fuel root q) root (List.range' i cs'.length) p =
        .ok (childSeqsE cs' p i, p) := by
  intro cs'
  induction cs' with
  | nil =>
    intro i p f hsub hgood hh hdrop
    simp [Edges.length, List.range', runChildrenF, childSeqsE]
  | cons l s g rp inj kids rest ihKids ihRest =>
    intro i p f hsub hgood hh hdrop
    have hgood' : (Edges.cons l s g rp inj kids rest).goodAll = true := by
      rw [← hdrop]; exact Edges.goodAll_dropE i f.kids hgood
    have hh' : (Edges.cons l s g rp inj kids rest).heightE ≤ fuel := by
      rw [← hdrop]; exact le_trans (Edges.heightE_dropE_le i f.kids) hh
    simp only [Edges.goodAll, Bool.and_eq_true] at hgood'
    obtain ⟨⟨⟨hl, hs⟩, hk⟩, hr⟩ := hgood'
    have hget : f.kids.get? i = some (true, true, ⟨g, rp, inj, kids⟩) := by
      have hg0 := Edges.get?_of_dropE i f.kids l s g rp inj kids rest hdrop
      rw [hl, hs] at hg0
      exact hg0
    have hdropS : f.kids.dropE (i + 1) = rest :=
      Edges.dropE_succ i f.kids l s g rp inj kids rest hdrop
    have hhk : kids.heightE + 1 ≤ fuel := by
      have hmax : kids.heightE + 1 ≤ (Edges.cons l s g rp inj kids rest).heightE := by
        simp [Edges.heightE]
      exact le_trans hmax hh'
    have hchild := runChildF_good fuel root IH p f i g rp inj kids hsub hget hk hhk
    have hrange : List.range' i ((Edges.cons l s g rp inj kids rest).length) =
        i :: List.range' (i + 1) rest.length := by
      simpa [Edges.length] using List.range'_succ i rest.length 1
    rw [hrange]
    simp only [runChildrenF]
    rw [hchild]
    simp only []
    rw [ihRest (i + 1) p f hsub hgood hh hdropS]
    simp [childSeqsE]

/-- `runPartialRecursive` on a world where every frame lookup and frame
switch succeeds computes exactly the claim's pre-order sequence, and
restores the context to the caller's frame on normal return (or leaves it
at `p` when its own pre-loop operations throw). -/
theorem runPR_spec (fuel : Nat) : ∀ (root : Frame) (p : List Nat) (f : Frame),
    subframe? root p = some f → f.goodEdges = true → f.height ≤ fuel →
    runPRFun fuel root p = preorderResult f p := by
  induction fuel with
  | zero =>
    intro root p f _ _ hh
    exact absurd hh (by simp [Frame.height])
  | succ fuel ih =>
    intro root p f hsub hgood hh
    have hstep : runPRFun (fuel + 1) root p = runPRStep (fun q => runPRFun fuel root q) root p :=
      rfl
    rw [hstep]
    unfold runPRStep
    rw [hsub]
    simp only []
    by_cases hg : f.getCtxOk = false
    · simp [hg, preorderResult, preorderSeq]
    · have hg' : f.getCtxOk = true := by revert hg; cases f.getCtxOk <;> simp
      by_cases hrp : f.runPartialOk = false
      · simp [hg, hrp, preorderResult, preorderSeq, hg']
      · have hrp' : f.runPartialOk = true := by revert hrp; cases f.runPartialOk <;> simp
        have hloop := runChildrenF_spec fuel root (fun p f h1 h2 h3 => ih root p f h1 h2 h3)
          f.kids 0 p f hsub (by simpa [Frame.goodEdges] using hgood)
          (by have hx := hh; simp only [Frame.height] at hx; omega) (Edges.dropE_zero f.kids)
        rw [List.range_eq_range' f.kids.length] at *
        simp only [hg', hrp']
        simp only [Bool.true_eq_false, if_false]
        rw [hloop]
        simp [preorderResult, preorderSeq, hg', hrp']

/-- With fuel available, an invocation whose own pre-loop operations fail
throws with the context still at `p`. -/
theorem runPR_preloop_true (root : Frame) (p : List Nat) (n : Nat)
    (hb : preloopFails root p = true) :
    runPRFun (n + 1) root p = Except.error (RunErr.thrown p) := by
  have hstep : runPRFun (n + 1) root p = runPRStep (fun r => runPRFun n root r) root p := rfl
  rw [hstep]
  unfold runPRStep
  cases hsub : subframe? root p with
  | none => rfl
  | some f =>
    simp only [preloopFails, hsub, Bool.or_eq_true, Bool.not_eq_true'] at hb
    rcases hb with hg | hrp
    · simp [hg]
    · by_cases hg : f.getCtxOk = false
      · simp [hg]
      · simp [hg, hrp]

/-- If the pre-loop operations succeed, no exception ever escapes the
invocation: the child loop catches everything. -/
theorem runPR_preloop_false (root : Frame) (p : List Nat) (fuel : Nat) (q : List Nat)
    (hb : preloopFails root p = false) :
    runPRFun fuel root p ≠ Except.error (RunErr.thrown q) := by
  cases fuel with
  | zero => simp [runPRFun]
  | succ n =>
    have hstep : runPRFun (n + 1) root p = runPRStep (fun r => runPRFun n root r) root p := rfl
    rw [hstep]
    unfold runPRStep
    cases hsub : subframe? root p with
    | none => simp [preloopFails, hsub] at hb
    | some f =>
      simp only [preloopFails, hsub] at hb
      simp at hb
      obtain ⟨hg, hrp⟩ := hb
      simp only [hg, hrp]
      simp only [Bool.true_eq_false, if_false]
      cases hloop : runChildrenF (fun r => runPRFun n root r) root
          (List.range f.kids.length) p with
      | error e' =>
        have he' := runChildrenF_error (fun r => runPRFun n root r) root
          (List.range f.kids.length) p e' hloop
        subst he'
        simp
      | ok t =>
        obtain ⟨cb, pe⟩ := t
        simp

set_option maxRecDepth 100000

/-- C1 (amended): provided every discovered child frame can be located and
switched into — i.e. every per-child failure happens only after the
browsing context entered the child (`goodEdges`) — the sequence returned by
`runPartialRecursive` is exactly the pre-order sequence: the current
frame's own partial result first, then each discovered child's
contribution in discovery order, where a failed child contributes exactly
one `null` and a successful child its entire subtree's sequence; the total
length is `1` plus, for each child, either its full recursive count or
exactly `1`.  (Without the proviso, a lookup/switch failure pops the
context above the current frame and a later sibling's selector can resolve
to a different frame's subtree: see the counterexample.) -/
theorem C1_collector_preorder_amended (root : Frame) (fuel : Nat) (p : List Nat) (f : Frame)
    (hsub : subframe? root p = some f) (hgood : f.goodEdges = true)
    (hfuel : f.height ≤ fuel) :
    runPartialRecursiveM root fuel p = preorderResult f p ∧
    (preorderSeq f p).map List.length =
      (if (f.getCtxOk && f.runPartialOk) = true then some (f.kids.contribLenE + 1) else none) := by
  constructor
  · exact runPR_spec fuel root p f hsub hgood hfuel
  · by_cases h : (f.getCtxOk && f.runPartialOk) = false
    · simp [preorderSeq, h]
    · have h' : (f.getCtxOk && f.runPartialOk) = true := by
        revert h; cases (f.getCtxOk && f.runPartialOk) <;> simp
      simp [preorderSeq, h', childSeqsE_length]

/-- C1 counterexample: in `cexTree1`, the invocation at frame `A = [0]`
(children `B1`, `B2`, both leaf subtrees of full count 1) fails on `B1`
before entering it; the catch pops the context to the top, the selector
for `B2` resolves to top-level child `X = [1]`, and `X`'s three-frame
subtree is appended in `B2`'s slot.  The claim permits only length
`1 + 1 + 1 = 3`, but the code returns 5 entries. -/
theorem C1_wrong_subtree_counterexample :
    runPartialRecursiveM cexTree1 10 [0] =
      Except.ok ([some [0], none, some [1], some [1, 0], some [1, 1]], ([] : List Nat)) ∧
    Frame.fullCount ⟨true, true, true, Edges.nil⟩ = 1 ∧
    ([some [0], none, some [1], some [1, 0], some [1, 1]] : Partials).length = 5 ∧
    ¬ (5 = 1 + 1 + 1) :=
  ⟨rfl, rfl, rfl, by decide⟩

/-- C1 witness: the amended theorem applied to the concrete good tree
`witTree1` with fuel 3 at the top context. -/
theorem C1_collector_preorder_witness :
    runPartialRecursiveM witTree1 3 [] = preorderResult witTree1 [] ∧
    (preorderSeq witTree1 []).map List.length =
      (if (Frame.getCtxOk witTree1 && Frame.runPartialOk witTree1) = true
       then some ((Frame.kids witTree1).contribLenE + 1) else none) :=
  C1_collector_preorder_amended witTree1 3 [] witTree1 rfl rfl (by decide)

/-- C2: every error raised while processing one child frame (lookup, the
assertion, switching in, re-injecting, or the recursive call) is caught and
becomes a single `null`; the only exceptions escaping
`runPartialRecursive` are from its own pre-loop operations
(`axeGetFrameContext` / `axeRunPartial` at the entry context, which at the
top level propagate to `analyze`), and at `analyzePromise` level a failed
top-frame injection probe propagates unwrapped while a `finishRun` failure
propagates with the troubleshooting pointer appended. -/
theorem C2_child_errors_contained (root : Frame) (fuel : Nat) (p q : List Nat) (i : Nat)
    (b : AxeBuilder) (w : AnalyzeWorld) (st st' : WinState) (e : String)
    (parts : Partials) (pend : List Nat) :
    (runPartialRecursiveM root fuel p = Except.error (RunErr.thrown q) →
      q = p ∧ preloopFails root p = true) ∧
    (preloopFails root p = true → 0 < fuel →
      runPartialRecursiveM root fuel p = Except.error (RunErr.thrown p)) ∧
    (runChildF (fun r => runPRFun fuel root r) root p i = Except.error (RunErr.thrown q) →
      False) ∧
    (w.probe = Except.error e →
      (analyzePromiseM b w st).result = Except.error (AError.msg e)) ∧
    (w.probe = Except.ok true → b.legacyMode = false →
      runPartialRecursiveM w.frameTree w.fuel [] = Except.ok (parts, pend) →
      finishRunM w.finish parts st = Except.error (e, st') →
      (analyzePromiseM b w st).result = Except.error (AError.msg (e ++ troubleshootMsg))) := by
  refine ⟨?_, ?_, ?_, ?_, ?_⟩
  · intro h
    by_cases hb : preloopFails root p = true
    · cases fuel with
      | zero => exact absurd h (by simp [runPartialRecursiveM, runPRFun])
      | succ n =>
        have h2 : runPartialRecursiveM root (n + 1) p = Except.error (RunErr.thrown p) :=
          runPR_preloop_true root p n hb
        have h3 := h2.symm.trans h
        simp only [Except.error.injEq, RunErr.thrown.injEq] at h3
        exact ⟨h3.symm, hb⟩
    · have hb' : preloopFails root p = false := by
        revert hb; cases preloopFails root p <;> simp
      exact absurd h (runPR_preloop_false root p fuel q hb')
  · intro hb hf
    obtain ⟨n, rfl⟩ : ∃ n, fuel = n + 1 := ⟨fuel - 1, by omega⟩
    exact runPR_preloop_true root p n hb
  · intro h
    have := runChildF_error (fun r => runPRFun fuel root r) root p i (RunErr.thrown q) h
    simp at this
  · intro hp
    simp [analyzePromiseM, hp]
  · intro hp hlm hcol hfr
    simp [analyzePromiseM, hp, hlm, hcol, hfr]

/-- C2 witness: the containment theorem applied at the concrete frame
`witTree2` (whose own `axeGetFrameContext` fails) and the concrete
probe-failing world `witAnalyzeW2`. -/
theorem C2_child_errors_contained_witness :
    (runPartialRecursiveM witTree2 1 [] = Except.error (RunErr.thrown []) →
      ([] : List Nat) = [] ∧ preloopFails witTree2 [] = true) ∧
    (preloopFails witTree2 [] = true → 0 < 1 →
      runPartialRecursiveM witTree2 1 [] = Except.error (RunErr.thrown [])) ∧
    (runChildF (fun r => runPRFun 1 witTree2 r) witTree2 [] 0 =
        Except.error (RunErr.thrown []) → False) ∧
    (witAnalyzeW2.probe = Except.error ("probe boom") →
      (analyzePromiseM AxeBuilder.init witAnalyzeW2 ⟨"w", ["w"]⟩).result =
        Except.error (AError.msg ("probe boom"))) ∧
    (witAnalyzeW2.probe = Except.ok true → AxeBuilder.init.legacyMode = false →
      runPartialRecursiveM witAnalyzeW2.frameTree witAnalyzeW2.fuel [] =
        Except.ok ([], []) →
      finishRunM witAnalyzeW2.finish [] ⟨"w", ["w"]⟩ =
        Except.error (("probe boom"), ⟨"w", ["w"]⟩) →
      (analyzePromiseM AxeBuilder.init witAnalyzeW2 ⟨"w", ["w"]⟩).result =
        Except.error (AError.msg ("probe boom" ++ troubleshootMsg))) :=
  C2_child_errors_contained witTree2 1 [] [] 0 AxeBuilder.init witAnalyzeW2
    ⟨"w", ["w"]⟩ ⟨"w", ["w"]⟩ ("probe boom") [] []

/-- C3 (amended): provided every per-child failure occurs only after the
browsing context switched into the child frame (`goodEdges`), every
invocation of `runPartialRecursive` either returns normally with the
context restored to the caller's frame (`popFrame p`, the final
`switchToParentFrame` having undone the caller's switch into `p`), or
throws from its own pre-loop operations with the context still at `p`
(whereupon the caller's catch restores it).  Without the proviso, a
failure before entering the child pops the context above the current
frame: see the counterexample. -/
theorem C3_context_restore_amended (root : Frame) (fuel : Nat) (p : List Nat) (f : Frame)
    (hsub : subframe? root p = some f) (hgood : f.goodEdges = true)
    (hfuel : f.height ≤ fuel) :
    resultIsFuelOut (runPartialRecursiveM root fuel p) = false ∧
    resultCtx (runPartialRecursiveM root fuel p) =
      (if resultIsOk (runPartialRecursiveM root fuel p) = true then popFrame p else p) := by
  have h : runPartialRecursiveM root fuel p = preorderResult f p :=
    runPR_spec fuel root p f hsub hgood hfuel
  rw [h]
  unfold preorderResult
  cases hps : preorderSeq f p with
  | none => simp [resultIsFuelOut, resultCtx, resultIsOk]
  | some s => simp [resultIsFuelOut, resultCtx, resultIsOk]

/-- C3 counterexample: in `cexTree3` (top → `A = [0]` → `B = [0, 0]`, where
`B`'s only child fails at `switchToFrame`), the invocation entered at
`[0, 0]` returns with the browsing context at `[]`, not at its caller's
frame `popFrame [0, 0] = [0]`: the catch popped once without a matching
switch, and the final pop moved the context above the caller. -/
theorem C3_context_counterexample :
    runPartialRecursiveM cexTree3 10 [0, 0] =
      Except.ok ([some [0, 0], none], ([] : List Nat)) ∧
    popFrame [0, 0] = [0] ∧ (([] : List Nat) ≠ [0]) :=
  ⟨rfl, rfl, by decide⟩

/-- C3 witness: the amended theorem applied to `witTree3` (a leaf whose own
`axeRunPartial` fails) at the top context with fuel 1. -/
theorem C3_context_restore_witness :
    resultIsFuelOut (runPartialRecursiveM witTree3 1 []) = false ∧
    resultCtx (runPartialRecursiveM witTree3 1 []) =
      (if resultIsOk (runPartialRecursiveM witTree3 1 []) = true then popFrame [] else []) :=
  C3_context_restore_amended witTree3 1 [] witTree3 rfl rfl (by decide)

/-- C4 (amended): `finishRun` performs its cleanup (close the temporary
window, switch back to the recorded handle) only on the success path.  If
the merge step fails, the error — augmented in `analyzePromise` with the
troubleshooting pointer — propagates with the temporary window still open
and still the active window; only when the merge succeeds does the active
handle after the call equal the handle recorded before the new window was
created. -/
theorem C4_finish_cleanup_amended (w : FinishWorld) (parts : Partials) (st : WinState)
    (h : String) (e : String) (res : AxeRes) (b : AxeBuilder) (wA : AnalyzeWorld)
    (pend : List Nat)
    (hh : w.newHandle = some h) (hne : ¬ h = "") (hsw : w.switchNewErr = none)
    (hurl : w.urlErr = none) (hp : wA.probe = Except.ok true) (hlm : b.legacyMode = false)
    (hcol : runPartialRecursiveM wA.frameTree wA.fuel [] = Except.ok (parts, pend))
    (hfin : wA.finish = w) :
    (w.merge parts = Except.error e →
      finishRunM w parts st = Except.error (e, ⟨h, st.opened ++ [h]⟩)) ∧
    (w.merge parts = Except.ok res →
      finishRunM w parts st = Except.ok (res, ⟨st.current, (st.opened ++ [h]).erase h⟩)) ∧
    (w.merge parts = Except.error e →
      (analyzePromiseM b wA st).result = Except.error (AError.msg (e ++ troubleshootMsg)) ∧
      (analyzePromiseM b wA st).final = ⟨h, st.opened ++ [h]⟩) ∧
    (w.merge parts = Except.ok res →
      (analyzePromiseM b wA st).final = ⟨st.current, (st.opened ++ [h]).erase h⟩ ∧
      (analyzePromiseM b wA st).final.current = st.current) := by
  refine ⟨?_, ?_, ?_, ?_⟩
  · intro hm
    simp [finishRunM, hh, hne, hsw, hurl, hm]
  · intro hm
    simp [finishRunM, hh, hne, hsw, hurl, hm]
  · intro hm
    have hf : finishRunM wA.finish parts st = Except.error (e, ⟨h, st.opened ++ [h]⟩) := by
      rw [hfin]
      simp [finishRunM, hh, hne, hsw, hurl, hm]
    constructor
    · simp [analyzePromiseM, hp, hlm, hcol, hf]
    · simp [analyzePromiseM, hp, hlm, hcol, hf]
  · intro hm
    have hf : finishRunM wA.finish parts st =
        Except.ok (res, ⟨st.current, (st.opened ++ [h]).erase h⟩) := by
      rw [hfin]
      simp [finishRunM, hh, hne, hsw, hurl, hm]
    constructor
    · simp [analyzePromiseM, hp, hlm, hcol, hf]
    · simp [analyzePromiseM, hp, hlm, hcol, hf]

/-- C4 counterexample: with the merge failing in world `cexAnalyzeW4`,
`analyzePromise` propagates the augmented error but the final window state
has the temporary window `"tmp"` active and still open — the active handle
after the call is not the handle `"orig"` recorded before `finishRun`
created the window, contradicting the claimed unconditional restoration. -/
theorem C4_no_cleanup_counterexample :
    analyzePromiseM AxeBuilder.init cexAnalyzeW4 ⟨"orig", ["orig"]⟩ =
      ⟨[Step.normalizeCtx, Step.probeTop, Step.collectParts, Step.finishStep],
        ⟨"tmp", ["orig", "tmp"]⟩,
        Except.error (AError.msg ("merge failed" ++ troubleshootMsg))⟩ ∧
    ("tmp" : String) ≠ "orig" ∧ ("tmp" : String) ∈ ["orig", "tmp"] :=
  ⟨rfl, by decide, by decide⟩

/-- C4 witness: the amended theorem applied to the concrete failing-merge
world `witFinishW4` inside `witAnalyzeW4`. -/
theorem C4_finish_cleanup_witness :
    (witFinishW4.merge [some []] = Except.error ("bad merge") →
      finishRunM witFinishW4 [some []] ⟨"home", ["home"]⟩ =
        Except.error (("bad merge"), ⟨"tw", ["home"] ++ ["tw"]⟩)) ∧
    (witFinishW4.merge [some []] = Except.ok ("unused") →
      finishRunM witFinishW4 [some []] ⟨"home", ["home"]⟩ =
        Except.ok (("unused"), ⟨"home", (["home"] ++ ["tw"]).erase "tw"⟩)) ∧
    (witFinishW4.merge [some []] = Except.error ("bad merge") →
      (analyzePromiseM AxeBuilder.init witAnalyzeW4 ⟨"home", ["home"]⟩).result =
        Except.error (AError.msg ("bad merge" ++ troubleshootMsg)) ∧
      (analyzePromiseM AxeBuilder.init witAnalyzeW4 ⟨"home", ["home"]⟩).final =
        ⟨"tw", ["home"] ++ ["tw"]⟩) ∧
    (witFinishW4.merge [some []] = Except.ok ("unused") →
      (analyzePromiseM AxeBuilder.init witAnalyzeW4 ⟨"home", ["home"]⟩).final =
        ⟨"home", (["home"] ++ ["tw"]).erase "tw"⟩ ∧
      (analyzePromiseM AxeBuilder.init witAnalyzeW4 ⟨"home", ["home"]⟩).final.current =
        "home") :=
  C4_finish_cleanup_amended witFinishW4 [some []] ⟨"home", ["home"]⟩ ("tw") ("bad merge")
    ("unused") AxeBuilder.init witAnalyzeW4 [] rfl (by decide) rfl rfl rfl rfl rfl rfl

/-- C5 (amended): with a callback, a failed run calls the callback with
`(errorMessage, null)` and the promise returned by `analyze` never settles
— neither `resolve` nor `reject` is called, so it stays pending rather
than resolving with no value; without a callback the promise rejects with
the error; on success the promise resolves with the results and the
callback, if present, receives `(null, results)`; with a callback the
promise never rejects. -/
theorem C5_callback_channel_amended (r : AxeRes) (e : AError) (b : AxeBuilder)
    (w : AnalyzeWorld) (st : WinState) :
    analyzeM (Except.ok r) true = ([(none, some r)], PromiseState.resolved (some r)) ∧
    analyzeM (Except.ok r) false = ([], PromiseState.resolved (some r)) ∧
    analyzeM (Except.error e) true = ([(some e.message, none)], PromiseState.pending) ∧
    analyzeM (Except.error e) false = ([], PromiseState.rejected e) ∧
    ((analyzeFullM b w st true).2 = PromiseState.rejected e → False) := by
  refine ⟨rfl, rfl, rfl, rfl, ?_⟩
  unfold analyzeFullM analyzeM
  cases (analyzePromiseM b w st).result with
  | error e' => simp
  | ok r' => simp

/-- C5 counterexample: on failure with a callback the promise stays
pending; it does not resolve successfully with no value as claimed. -/
theorem C5_pending_counterexample :
    analyzeM (Except.error (AError.msg ("boom"))) true =
      ([(some ("boom"), none)], PromiseState.pending) ∧
    (PromiseState.pending : PromiseState AxeRes) ≠ PromiseState.resolved none :=
  ⟨rfl, by decide⟩

/-- C5 witness: the amended theorem at concrete inputs. -/
theorem C5_callback_channel_witness :
    analyzeM (Except.ok ("res5")) true =
      ([(none, some ("res5"))], PromiseState.resolved (some ("res5"))) ∧
    analyzeM (Except.ok ("res5")) false = ([], PromiseState.resolved (some ("res5"))) ∧
    analyzeM (Except.error (AError.msg ("x5"))) true =
      ([(some ((AError.msg ("x5")).message), none)], PromiseState.pending) ∧
    analyzeM (Except.error (AError.msg ("x5"))) false =
      ([], PromiseState.rejected (AError.msg ("x5"))) ∧
    ((analyzeFullM AxeBuilder.init witAnalyzeW6 ⟨"h5", []⟩ true).2 =
        PromiseState.rejected (AError.msg ("x5")) → False) :=
  C5_callback_channel_amended ("res5") (AError.msg ("x5")) AxeBuilder.init witAnalyzeW6
    ⟨"h5", []⟩

/-- C6: `analyzePromise` builds the normalized `ScanContext` from the
accumulated include, exclude and disabled-frame selectors, then injects
the engine into the top frame and probes partial-run support; it delegates
to the legacy runner (inject the whole tree, then one whole-document run
with the top-level context and options) if and only if the probe reports
partial runs unsupported or the legacy flag is set, and otherwise runs the
collector from the top frame and then `finishRun` on the collected
partials. -/
theorem C6_branch_sequence (b : AxeBuilder) (w : AnalyzeWorld) (st : WinState) (sup : Bool)
    (parts : Partials) (pend : List Nat) (res : AxeRes) (st' : WinState)
    (hp : w.probe = Except.ok sup) :
    ((!sup || b.legacyMode) = true →
      analyzePromiseM b w st =
        ⟨[Step.normalizeCtx, Step.probeTop, Step.injectAllFrames, Step.legacyRun], st,
          exceptToAErr (w.legacyRes
            (normalizeContextM b.includes b.excludes b.disableFrameSelectors) b.option)⟩) ∧
    ((!sup || b.legacyMode) = false →
      runPartialRecursiveM w.frameTree w.fuel [] = Except.ok (parts, pend) →
      finishRunM w.finish parts st = Except.ok (res, st') →
      analyzePromiseM b w st =
        ⟨[Step.normalizeCtx, Step.probeTop, Step.collectParts, Step.finishStep], st',
          Except.ok res⟩) ∧
    (Step.legacyRun ∈ (analyzePromiseM b w st).trace ↔ (!sup || b.legacyMode) = true) := by
  refine ⟨?_, ?_, ?_⟩
  · intro hb
    simp [analyzePromiseM, hp, hb]
  · intro hb hcol hfr
    simp [analyzePromiseM, hp, hb, hcol, hfr]
  · by_cases hb : (!sup || b.legacyMode) = true
    · simp [analyzePromiseM, hp, hb]
    · have hb' : (!sup || b.legacyMode) = false := by
        revert hb; cases (!sup || b.legacyMode) <;> simp
      cases hcol : runPartialRecursiveM w.frameTree w.fuel [] with
      | error er =>
        cases er with
        | thrown qq => simp [analyzePromiseM, hp, hb', hcol]
        | fuelOut => simp [analyzePromiseM, hp, hb', hcol]
      | ok t =>
        obtain ⟨ps, pe⟩ := t
        cases hfr : finishRunM w.finish ps st with
        | error t2 =>
          obtain ⟨ee, s2⟩ := t2
          simp [analyzePromiseM, hp, hb', hcol, hfr]
        | ok t2 =>
          obtain ⟨rr, s2⟩ := t2
          simp [analyzePromiseM, hp, hb', hcol, hfr]

/-- C6 witness: the branch theorem at the concrete unsupported-probe world
`witAnalyzeW6` (the legacy branch is taken). -/
theorem C6_branch_sequence_witness :
    ((!false || AxeBuilder.init.legacyMode) = true →
      analyzePromiseM AxeBuilder.init witAnalyzeW6 ⟨"h6", ["h6"]⟩ =
        ⟨[Step.normalizeCtx, Step.probeTop, Step.injectAllFrames, Step.legacyRun],
          ⟨"h6", ["h6"]⟩,
          exceptToAErr (witAnalyzeW6.legacyRes
            (normalizeContextM AxeBuilder.init.includes AxeBuilder.init.excludes
              AxeBuilder.init.disableFrameSelectors) AxeBuilder.init.option)⟩) ∧
    ((!false || AxeBuilder.init.legacyMode) = false →
      runPartialRecursiveM witAnalyzeW6.frameTree witAnalyzeW6.fuel [] =
        Except.ok ([], []) →
      finishRunM witAnalyzeW6.finish [] ⟨"h6", ["h6"]⟩ =
        Except.ok (("r"), ⟨"h6", ["h6"]⟩) →
      analyzePromiseM AxeBuilder.init witAnalyzeW6 ⟨"h6", ["h6"]⟩ =
        ⟨[Step.normalizeCtx, Step.probeTop, Step.collectParts, Step.finishStep],
          ⟨"h6", ["h6"]⟩, Except.ok ("r")⟩) ∧
    (Step.legacyRun ∈ (analyzePromiseM AxeBuilder.init witAnalyzeW6 ⟨"h6", ["h6"]⟩).trace ↔
      (!false || AxeBuilder.init.legacyMode) = true) :=
  C6_branch_sequence AxeBuilder.init witAnalyzeW6 ⟨"h6", ["h6"]⟩ false [] [] ("r")
    ⟨"h6", ["h6"]⟩ rfl

/-- C7: the composed script is the engine source followed by a
configuration call carrying the branding tag; with the legacy flag off the
configuration additionally contains the `allowedOrigins:
['<unsafe_all_origins>']` whitelist entry, and with the flag on the text
the composer appends around the source contains no such entry (the
whitelist string does not occur in either appended piece). -/
theorem C7_script_composition (s : String) :
    script s false = scriptHead ++ s ++ scriptCfgOpen ++ wlEntry ++ scriptCfgClose ∧
    script s true = scriptHead ++ s ++ scriptCfgOpen ++ "" ++ scriptCfgClose ∧
    (wlPat <:+: (scriptCfgOpen ++ wlEntry ++ scriptCfgClose).toList) ∧
    ¬ (wlPat <:+: (scriptCfgOpen ++ scriptCfgClose).toList) ∧
    ¬ (wlPat <:+: scriptHead.toList) ∧
    (brandingPat <:+: (scriptCfgOpen ++ scriptCfgClose).toList) ∧
    (brandingPat <:+: (scriptCfgOpen ++ wlEntry ++ scriptCfgClose).toList) :=
  ⟨rfl, rfl, by decide, by decide, by decide, by decide, by decide⟩

/-- C7 witness: the composition theorem at a concrete engine source. -/
theorem C7_script_composition_witness :
    script ("AXE SOURCE") false =
      scriptHead ++ "AXE SOURCE" ++ scriptCfgOpen ++ wlEntry ++ scriptCfgClose ∧
    script ("AXE SOURCE") true =
      scriptHead ++ "AXE SOURCE" ++ scriptCfgOpen ++ "" ++ scriptCfgClose ∧
    (wlPat <:+: (scriptCfgOpen ++ wlEntry ++ scriptCfgClose).toList) ∧
    ¬ (wlPat <:+: (scriptCfgOpen ++ scriptCfgClose).toList) ∧
    ¬ (wlPat <:+: scriptHead.toList) ∧
    (brandingPat <:+: (scriptCfgOpen ++ scriptCfgClose).toList) ∧
    (brandingPat <:+: (scriptCfgOpen ++ wlEntry ++ scriptCfgClose).toList) :=
  C7_script_composition ("AXE SOURCE")

/-- C8: `withRules` and `withTags` each overwrite the single `runOnly`
selection with their own type and values, regardless of the previous
builder state, so after any sequence of such calls only the most recent
call's selection mode and values are present — never both. -/
theorem C8_runOnly_exclusive (b : AxeBuilder) (rs ts : Sum String (List String)) :
    ((b.withRules rs).withTags ts).option.runOnly =
      some ⟨RunOnlyType.tag, toStringList ts⟩ ∧
    ((b.withTags ts).withRules rs).option.runOnly =
      some ⟨RunOnlyType.rule, toStringList rs⟩ ∧
    (b.withRules rs).option.runOnly = some ⟨RunOnlyType.rule, toStringList rs⟩ ∧
    (b.withTags ts).option.runOnly = some ⟨RunOnlyType.tag, toStringList ts⟩ :=
  ⟨rfl, rfl, rfl, rfl⟩

/-- C9: `options(o)` replaces the entire accumulated `RunOptions` with `o`,
discarding any previous `runOnly` selection or per-rule disable map, and
subsequent `withRules` / `withTags` / `disableRules` calls modify that
stored object, so the options the builder holds for `analyze` are the last
`options()` argument as modified by any later rule/tag calls. -/
theorem C9_options_replace (b : AxeBuilder) (o : RunOptions)
    (rs ts ds : Sum String (List String)) :
    (b.options o).option = o ∧
    ((b.withRules rs).options o).option = o ∧
    ((b.disableRules ds).options o).option = o ∧
    ((b.withTags ts).options o).option = o ∧
    ((b.options o).withRules rs).option =
      { o with runOnly := some ⟨RunOnlyType.rule, toStringList rs⟩ } ∧
    ((b.options o).withTags ts).option =
      { o with runOnly := some ⟨RunOnlyType.tag, toStringList ts⟩ } ∧
    ((b.options o).disableRules ds).option =
      { o with rules := some ((toStringList ds).foldl setRuleDisabled []) } ∧
    (((b.options o).withRules rs).withTags ts).option =
      { o with runOnly := some ⟨RunOnlyType.tag, toStringList ts⟩ } :=
  ⟨rfl, rfl, rfl, rfl, rfl, rfl, rfl, rfl⟩

/-- C10: `setLegacyMode` with an omitted argument sets the legacy flag to
`true` (the parameter defaults to `true`), `setLegacyMode(false)` clears
it, and like every other configuration method it returns the builder with
only its own fields updated, so configuration calls chain on one shared
accumulated state. -/
theorem C10_setLegacyMode_chaining (b : AxeBuilder) (esc : String → String)
    (fsel : String) (inc exc rs : Sum String (List String)) (o : RunOptions)
    (lm : Option Bool) :
    (b.setLegacyMode none).legacyMode = true ∧
    (b.setLegacyMode (some false)).legacyMode = false ∧
    (b.setLegacyMode (some true)).legacyMode = true ∧
    (b.setLegacyMode lm).includes = b.includes ∧
    (b.setLegacyMode lm).excludes = b.excludes ∧
    (b.setLegacyMode lm).option = b.option ∧
    (b.setLegacyMode lm).disableFrameSelectors = b.disableFrameSelectors ∧
    (((((b.disableFrame esc fsel).include_ inc).exclude exc).options o).withRules
        rs).setLegacyMode none =
      ⟨b.includes ++ [toStringList inc], b.excludes ++ [toStringList exc],
        { o with runOnly := some ⟨RunOnlyType.rule, toStringList rs⟩ },
        b.disableFrameSelectors ++ [esc fsel], true⟩ :=
  ⟨rfl, rfl, rfl, rfl, rfl, rfl, rfl, rfl⟩

end AxeWdio
